import Mathlib

/-!
Verification of the `mcp_tool_gateway` authentication core: the token issuer
(`security.issue_jwt`), the token verifier (`security.verify_jwt_from_header`,
`auth.JwtTokenVerifier.verify_token`), the scope check (`security.require_scopes`),
the streaming-safe auth gate (`middleware.McpAuthGateMiddleware.__call__`) and the
`/messages` forwarding alias (`app.mcp_messages_alias`).

Python strings are embedded as `List Char` (`PyStr`); JSON claim values as a small
inductive; the PyJWT `encode`/`decode` pair is embedded symbolically (a signed token
is its claim set plus the key and algorithm it was signed with, the base64/JSON
serialization being abstracted away).
-/

/-- Python strings, embedded as their character lists. -/
abbrev PyStr := List Char

/-- ASCII whitespace as recognised by Python `str.split()` / `str.strip()`
(space, tab, newline, carriage return, vertical tab, form feed). -/
def pyIsWs (c : Char) : Bool :=
  c == ' ' || c == '\t' || c == '\n' || c == '\r' || c == '\x0b' || c == '\x0c'

/-- Helper for `pySplitWs`: `acc` holds the reversed current word. -/
def splitWsAux : PyStr → PyStr → List PyStr
  | [], acc => if acc = [] then [] else [acc.reverse]
  | c :: cs, acc =>
    if pyIsWs c then
      if acc = [] then splitWsAux cs [] else acc.reverse :: splitWsAux cs []
    else splitWsAux cs (c :: acc)

/-- Python `s.split()` with no argument: split on runs of whitespace, never
producing empty pieces. -/
def pySplitWs (s : PyStr) : List PyStr := splitWsAux s []

/-- Python `sep.join(parts)`. -/
def pyJoin (sep : PyStr) : List PyStr → PyStr
  | [] => []
  | [w] => w
  | w :: ws => w ++ sep ++ pyJoin sep ws

/-- Python `s.lower()` (ASCII case folding, all that is needed here). -/
def pyLower (s : PyStr) : PyStr := s.map Char.toLower

/-- Python `s.strip()`. -/
def pyStrip (s : PyStr) : PyStr :=
  ((s.dropWhile pyIsWs).reverse.dropWhile pyIsWs).reverse

/-- Atomic JSON values that may occur as elements of a list-shaped claim. -/
inductive JAtom where
  | anull : JAtom
  | abool : Bool → JAtom
  | aint : Int → JAtom
  | astr : PyStr → JAtom
deriving DecidableEq

/-- JSON values a JWT claim may take in this embedding (lists hold atoms;
nested lists do not occur in the repository's token shapes). -/
inductive JVal where
  | vnull : JVal
  | vbool : Bool → JVal
  | vint : Int → JVal
  | vstr : PyStr → JVal
  | vlist : List JAtom → JVal
deriving DecidableEq

/-- Python truthiness of an atomic value. -/
def JAtom.truthy : JAtom → Bool
  | .anull => false
  | .abool b => b
  | .aint n => n != 0
  | .astr s => !s.isEmpty

/-- Python truthiness of a claim value. -/
def JVal.truthy : JVal → Bool
  | .vnull => false
  | .vbool b => b
  | .vint n => n != 0
  | .vstr s => !s.isEmpty
  | .vlist l => !l.isEmpty

/-- Decimal rendering of an integer, as Python `str()` produces. -/
def intDecimal (n : Int) : PyStr :=
  if n < 0 then '-' :: Nat.toDigits 10 n.natAbs else Nat.toDigits 10 n.natAbs

/-- CPython `str()` on an atomic value. -/
def JAtom.pyStr : JAtom → PyStr
  | .anull => "None".toList
  | .abool true => "True".toList
  | .abool false => "False".toList
  | .aint n => intDecimal n
  | .astr s => s

/-- CPython `repr()` on an atomic value (string escaping elided; only the
overall shape matters for the functions modelled here). -/
def JAtom.pyRepr : JAtom → PyStr
  | .astr s => '\'' :: (s ++ ['\''])
  | a => a.pyStr

/-- CPython `str()` on a claim value. A list renders as `[repr, repr, ...]`. -/
def JVal.pyStr : JVal → PyStr
  | .vnull => "None".toList
  | .vbool true => "True".toList
  | .vbool false => "False".toList
  | .vint n => intDecimal n
  | .vstr s => s
  | .vlist l => '[' :: (pyJoin (", ".toList) (l.map JAtom.pyRepr) ++ [']'])

/-- Python `a or b` on claim values. -/
def pyOrJ (a b : JVal) : JVal := if a.truthy then a else b

/-- `payload.get(key)`: an absent claim reads as `None`. -/
def jget (o : Option JVal) : JVal := o.getD .vnull

/-- The configuration fields the auth core reads (`config.Settings`). -/
structure Settings where
  mcp_enable_auth : Bool
  mcp_mount_path : PyStr
  mcp_jwt_secret : PyStr
  mcp_jwt_issuer : PyStr
  mcp_jwt_audience : PyStr
  mcp_jwt_algorithm : PyStr
  mcp_jwt_ttl_seconds : Int
  mcp_required_scopes : List PyStr
deriving DecidableEq

/-- Modelled from the spec: `auth.JwtTokenVerifier.verify_token` reads
`settings.required_scopes_list`, an attribute no `Settings` class in the
snapshot defines; per the spec's configuration surface ("required scopes
(space/comma-separated list)") it denotes the configured required-scope list,
the same data `config.Settings.mcp_required_scopes` exposes. -/
def Settings.required_scopes_list (st : Settings) : List PyStr :=
  st.mcp_required_scopes

/-- A decoded JWT claim set, with the claim shapes this embedding models.
`none` means the claim is absent (or JSON `null`, which PyJWT's required-claim
check treats identically). -/
structure Payload where
  sub : Option PyStr
  iss : Option PyStr
  aud : Option PyStr
  iat : Option Int
  exp : Option Int
  scope : Option JVal
  scopes : Option JVal
deriving DecidableEq

/-- A signed JWS: its claim set plus the key and algorithm it was signed with.
`jwt.encode` builds one; `jwt.decode` checks it. The base64/JSON wire form is
abstracted away. -/
structure Token where
  payload : Payload
  key : PyStr
  alg : PyStr
deriving DecidableEq

/-- The PyJWT exception taxonomy reachable from `jwt.decode` here; every
constructor is a subclass of `InvalidTokenError`. -/
inductive JwtErr where
  | invalidAlgorithm : JwtErr
  | invalidSignature : JwtErr
  | missingClaim : PyStr → JwtErr
  | expired : JwtErr
  | invalidIssuer : JwtErr
  | invalidAudience : JwtErr
deriving DecidableEq

/-- Which claims the caller's `options={"require": [...]}` lists. -/
structure ReqClaims where
  exp : Bool
  iat : Bool
  iss : Bool
  aud : Bool
  sub : Bool
deriving DecidableEq

/-- `security.verify_jwt_from_header` requires `["exp", "iat", "iss", "aud", "sub"]`. -/
def reqAll : ReqClaims := ⟨true, true, true, true, true⟩

/-- `auth.JwtTokenVerifier.verify_token` requires `["exp", "iat", "sub"]`. -/
def reqBasic : ReqClaims := ⟨true, true, false, false, true⟩

/-- PyJWT `_validate_required_claims`: first listed claim that is absent. -/
def requiredClaimErr (rq : ReqClaims) (p : Payload) : Option JwtErr :=
  if rq.exp ∧ p.exp = none then some (.missingClaim ("exp".toList))
  else if rq.iat ∧ p.iat = none then some (.missingClaim ("iat".toList))
  else if rq.iss ∧ p.iss = none then some (.missingClaim ("iss".toList))
  else if rq.aud ∧ p.aud = none then some (.missingClaim ("aud".toList))
  else if rq.sub ∧ p.sub = none then some (.missingClaim ("sub".toList))
  else none

/-- PyJWT issuer/audience validation (both callers pass `issuer=` and
`audience=`, so both checks are active; a missing claim raises
`MissingRequiredClaimError` even when not listed in `require`). -/
def checkIssAud (p : Payload) (aud iss : PyStr) : Except JwtErr Payload :=
  match p.iss with
  | none => .error (.missingClaim ("iss".toList))
  | some i =>
    if i ≠ iss then .error .invalidIssuer
    else
      match p.aud with
      | none => .error (.missingClaim ("aud".toList))
      | some a =>
        if a ≠ aud then .error .invalidAudience
        else .ok p

/-- PyJWT `jwt.decode(token, key, algorithms=[alg], audience=aud, issuer=iss,
options={"require": rq})` evaluated at time `now`: algorithm and signature
checks, required-claim presence, expiry (`exp <= now` raises
`ExpiredSignatureError`), then issuer/audience matching. -/
def decodeJwt (tok : Token) (key alg aud iss : PyStr) (rq : ReqClaims)
    (now : Int) : Except JwtErr Payload :=
  if tok.alg ≠ alg then .error .invalidAlgorithm
  else if tok.key ≠ key then .error .invalidSignature
  else
    match requiredClaimErr rq tok.payload with
    | some e => .error e
    | none =>
      match tok.payload.exp with
      | some e => if e ≤ now then .error .expired else checkIssAud tok.payload aud iss
      | none => checkIssAud tok.payload aud iss

/-- `security.issue_jwt` with issuance time `now` (epoch seconds): claims
`sub`, `iss`, `aud`, `iat = now`, `exp = now + ttl`,
`scope = " ".join(scopes)`, signed with the configured secret and algorithm. -/
def issue_jwt (subject : PyStr) (scopes : List PyStr) (st : Settings)
    (now : Int) : Token :=
  ⟨⟨some subject, some st.mcp_jwt_issuer, some st.mcp_jwt_audience, some now,
    some (now + st.mcp_jwt_ttl_seconds), some (.vstr (pyJoin [' '] scopes)), none⟩,
   st.mcp_jwt_secret, st.mcp_jwt_algorithm⟩

/-- An error raised as `fastapi.HTTPException(status_code, detail)`. -/
structure HTTPError where
  status : Nat
  detail : PyStr
deriving DecidableEq

/-- `security._extract_bearer_token`: absent or empty header is missing auth;
anything not exactly two whitespace-separated parts whose first part lowercases
to `bearer` is malformed; both raise 401. -/
def extract_bearer_token (authorization : Option PyStr) : Except HTTPError PyStr :=
  match authorization with
  | none => .error ⟨401, "Missing Authorization header".toList⟩
  | some s =>
    if s = [] then .error ⟨401, "Missing Authorization header".toList⟩
    else
      match pySplitWs s with
      | [scheme, tokval] =>
        if pyLower scheme = "bearer".toList then .ok (pyStrip tokval)
        else .error ⟨401, "Invalid Authorization header".toList⟩
      | _ => .error ⟨401, "Invalid Authorization header".toList⟩

/-- The `try/except` around `jwt.decode` in `security.verify_jwt_from_header`:
`ExpiredSignatureError` becomes 401 "Token expired", every other
`InvalidTokenError` becomes 401 "Invalid token". -/
def verifyJwtCore (tok : Token) (st : Settings) (now : Int) :
    Except HTTPError Payload :=
  match decodeJwt tok st.mcp_jwt_secret st.mcp_jwt_algorithm st.mcp_jwt_audience
      st.mcp_jwt_issuer reqAll now with
  | .ok claims => .ok claims
  | .error .expired => .error ⟨401, "Token expired".toList⟩
  | .error _ => .error ⟨401, "Invalid token".toList⟩

/-- `security.verify_jwt_from_header`. `parseTok` abstracts the JWS
deserializer inside `jwt.decode`: `none` models a header token string that is
rejected as malformed (`DecodeError`, also an `InvalidTokenError`). -/
def verify_jwt_from_header (parseTok : PyStr → Option Token)
    (authorization : Option PyStr) (st : Settings) (now : Int) :
    Except HTTPError Payload :=
  match extract_bearer_token authorization with
  | .error e => .error e
  | .ok ts =>
    match parseTok ts with
    | none => .error ⟨401, "Invalid token".toList⟩
    | some tok => verifyJwtCore tok st now

/-- Lines 64–65 of `security.require_scopes`: the token scope set as derived
from the claims, `set([s for s in str(claims.get("scope") or "").split() if s])`. -/
def token_scopes (claims : Payload) : List PyStr :=
  (pySplitWs (pyOrJ (jget claims.scope) (.vstr [])).pyStr).filter
    (fun s => decide (s ≠ []))

/-- `', '.join(sorted(missing))` preceded by the fixed prefix text: Python
`sorted` on a set yields its distinct elements in ascending lexicographic
order. -/
def missingMsg (missing : List PyStr) : PyStr :=
  "Missing scopes: ".toList ++
    pyJoin (", ".toList) (List.insertionSort (· ≤ ·) missing.dedup)

/-- `security.require_scopes`: empty required set always passes; otherwise the
set difference `required - token_scopes` must be empty, else 403 with the
missing scopes named. -/
def require_scopes (claims : Payload) (st : Settings) : Except HTTPError Unit :=
  if st.mcp_required_scopes.toFinset = ∅ then .ok ()
  else if (st.mcp_required_scopes.filter
      (fun r => decide (r ∉ token_scopes claims))).toFinset = ∅ then .ok ()
  else .error ⟨403, missingMsg (st.mcp_required_scopes.filter
      (fun r => decide (r ∉ token_scopes claims)))⟩

/-- An ASGI connection scope as the gate reads it: event type, request path,
and the raw header pairs (ASGI mandates lowercase header names; the
`bytes → str` utf-8 decode is the identity here). The request body is not part
of the scope — it arrives through the opaque `receive` channel. -/
structure AsgiScope where
  type : PyStr
  path : PyStr
  headers : List (PyStr × PyStr)
deriving DecidableEq

/-- `dict(pairs).get(k, dflt)`: Python dict construction from a list of pairs
keeps the last value of a repeated key. -/
def dictGetLast (pairs : List (PyStr × PyStr)) (k dflt : PyStr) : PyStr :=
  match pairs.reverse.find? (fun p => decide (p.1 = k)) with
  | some p => p.2
  | none => dflt

/-- `starlette` `Headers.get(k, dflt)`: the first matching header wins. -/
def headersGetFirst (pairs : List (PyStr × PyStr)) (k dflt : PyStr) : PyStr :=
  match pairs.find? (fun p => decide (p.1 = k)) with
  | some p => p.2
  | none => dflt

/-- The check half of `McpAuthGateMiddleware.__call__` (middleware.py lines
31–41) for an HTTP scope: auth is enforced only when enabled and the path
starts with the mount path; then the bearer token is verified and the scopes
checked. `.ok` means the request is passed through. -/
def gateDecision (parseTok : PyStr → Option Token) (st : Settings) (now : Int)
    (sc : AsgiScope) : Except HTTPError Unit :=
  if st.mcp_enable_auth && st.mcp_mount_path.isPrefixOf sc.path then
    match verify_jwt_from_header parseTok
        (some (dictGetLast sc.headers ("authorization".toList) [])) st now with
    | .error e => .error e
    | .ok claims => require_scopes claims st
  else .ok ()

/-- The observable effect of one `McpAuthGateMiddleware.__call__` invocation:
either the inner app is awaited with a scope and the two ASGI channels, or an
`HTTPException` is raised. `ρ`/`σ` are the opaque `receive`/`send` channels. -/
inductive GateCall (ρ σ : Type) where
  | forward : AsgiScope → ρ → σ → GateCall ρ σ
  | raiseHTTP : HTTPError → GateCall ρ σ
deriving DecidableEq

/-- `McpAuthGateMiddleware.__call__`: non-HTTP scopes are forwarded without any
check; HTTP scopes are forwarded unchanged when `gateDecision` passes, and the
verification/scope `HTTPException` is raised otherwise. -/
def mcpAuthGateCall {ρ σ : Type} (parseTok : PyStr → Option Token)
    (st : Settings) (now : Int) (sc : AsgiScope) (receive : ρ) (send : σ) :
    GateCall ρ σ :=
  if sc.type ≠ "http".toList then .forward sc receive send
  else
    match gateDecision parseTok st now sc with
    | .error e => .raiseHTTP e
    | .ok _ => .forward sc receive send

/-- The request the `/messages` alias receives: Starlette header pairs
(lowercase keys), URL path and query string, and the body bytes (opaque `β`). -/
structure AliasRequest (β : Type) where
  headers : List (PyStr × PyStr)
  path : PyStr
  query : PyStr
  body : β
deriving DecidableEq

/-- The in-process request `httpx` `client.post(...)` issues against the
mounted MCP app. `timeout = none` is `timeout=None` (no timeout imposed). -/
structure UpstreamRequest (β : Type) where
  pathWithQuery : PyStr
  headers : List (PyStr × PyStr)
  content : β
  timeout : Option Int
deriving DecidableEq

/-- The sub-application's response to the forwarded call. -/
structure UpstreamResponse (γ : Type) where
  status : Nat
  headers : List (PyStr × PyStr)
  content : γ
deriving DecidableEq

/-- The result of one `mcp_messages_alias` invocation: a response built from
the upstream reply, or a raised auth `HTTPException`. -/
inductive AliasResult (γ : Type) where
  | response : Nat → List (PyStr × PyStr) → γ → AliasResult γ
  | raiseHTTP : HTTPError → AliasResult γ
deriving DecidableEq

/-- Keep the first pair for each key, in first-occurrence order: the effect of
`dict(request.headers)` on a Starlette `Headers` mapping (whose `__getitem__`
returns the first value of a key). -/
def dedupKeysFirst : List (PyStr × PyStr) → List (PyStr × PyStr)
  | [] => []
  | p :: ps => p :: (dedupKeysFirst ps).filter (fun q => decide (q.1 ≠ p.1))

/-- A Python dict built from a list of pairs, as a pair list: keys keep their
first-occurrence position, a repeated key keeps its last value. -/
def pyDictOfPairs (pairs : List (PyStr × PyStr)) : List (PyStr × PyStr) :=
  (dedupKeysFirst pairs).map (fun p => (p.1, dictGetLast pairs p.1 p.2))

/-- app.py lines 140–157: the forwarded request — the original body bytes, the
path with the query string re-attached, all inbound headers except `host`
(collapsed to their first value by `dict(request.headers)`), and no timeout. -/
def buildUpstreamRequest {β : Type} (req : AliasRequest β) : UpstreamRequest β :=
  ⟨(if req.query ≠ [] then req.path ++ ('?' :: req.query) else req.path),
   (dedupKeysFirst req.headers).filter (fun p => decide (p.1 ≠ "host".toList)),
   req.body, none⟩

/-- The fixed hop-by-hop header set of app.py lines 162–171. -/
def hopByHop : List PyStr :=
  ["connection".toList, "keep-alive".toList, "proxy-authenticate".toList,
   "proxy-authorization".toList, "te".toList, "trailers".toList,
   "transfer-encoding".toList, "upgrade".toList]

/-- app.py lines 149–173 once the auth check has passed: call the mounted app
in-process and return its status and content with hop-by-hop response headers
dropped (the dict comprehension keeps first key position, last value). -/
def aliasForward {β γ : Type} (req : AliasRequest β)
    (subApp : UpstreamRequest β → UpstreamResponse γ) : AliasResult γ :=
  let upstream := subApp (buildUpstreamRequest req)
  .response upstream.status
    (pyDictOfPairs (upstream.headers.filter
      (fun p => decide (pyLower p.1 ∉ hopByHop))))
    upstream.content

/-- `app.mcp_messages_alias`: when auth is enabled, run exactly the
verification and scope checks of the gate on the `authorization` header (first
occurrence, Starlette semantics) before anything is forwarded; then forward. -/
def mcp_messages_alias {β γ : Type} (parseTok : PyStr → Option Token)
    (st : Settings) (now : Int) (req : AliasRequest β)
    (subApp : UpstreamRequest β → UpstreamResponse γ) : AliasResult γ :=
  if st.mcp_enable_auth then
    match verify_jwt_from_header parseTok
        (some (headersGetFirst req.headers ("authorization".toList) [])) st now with
    | .error e => .raiseHTTP e
    | .ok claims =>
      match require_scopes claims st with
      | .error e => .raiseHTTP e
      | .ok _ => aliasForward req subApp
  else aliasForward req subApp

/-- The scope claim parsing of `auth.JwtTokenVerifier.verify_token` (lines
47–54): `payload.get("scope") or payload.get("scopes") or ""`, then a string
splits on whitespace, a list keeps its truthy elements `str()`-ed, and any
other shape yields no scopes. -/
def parseScopeClaim (scope scopes : Option JVal) : List PyStr :=
  match pyOrJ (pyOrJ (jget scope) (jget scopes)) (.vstr []) with
  | .vstr s => (pySplitWs s).filter (fun w => decide (w ≠ []))
  | .vlist l => (l.filter JAtom.truthy).map JAtom.pyStr
  | _ => []

/-- `auth.JwtToken`: the access-token info (Principal) the MCP verifier
returns. -/
structure JwtToken where
  client_id : PyStr
  scopes : List PyStr
  expires_at : Int
deriving DecidableEq

/-- `auth.JwtTokenVerifier.verify_token` at time `now`: decode (any failure
returns `None`), parse scopes, require a non-empty subject and an unexpired
`exp`, then enforce the configured required scopes (see
`Settings.required_scopes_list`). -/
def verify_token (tok : Token) (st : Settings) (now : Int) : Option JwtToken :=
  match decodeJwt tok st.mcp_jwt_secret st.mcp_jwt_algorithm st.mcp_jwt_audience
      st.mcp_jwt_issuer reqBasic now with
  | .error _ => none
  | .ok payload =>
    if payload.sub.getD [] = [] ∨ payload.exp.getD 0 ≤ now then none
    else if st.required_scopes_list ≠ [] ∧
        ¬ st.required_scopes_list.toFinset ⊆
          (parseScopeClaim payload.scope payload.scopes).toFinset then none
    else some ⟨payload.sub.getD [], parseScopeClaim payload.scope payload.scopes,
      payload.exp.getD 0⟩

/-- A concrete development configuration used by witnesses below. -/
def devSettings : Settings :=
  ⟨true, "/mcp".toList, "dev-secret".toList, "iss".toList, "aud".toList,
   "HS256".toList, 3600, []⟩

/-- `devSettings` with a required scope configured. -/
def devSettingsScoped : Settings :=
  ⟨true, "/mcp".toList, "dev-secret".toList, "iss".toList, "aud".toList,
   "HS256".toList, 3600, ["mcp".toList]⟩

/-- A JWS parser for witnesses that recognises no string. -/
def devParse : PyStr → Option Token := fun _ => none

/-- Decidable equality on `Except`, so witnesses can be checked by `decide`. -/
instance {ε α : Type} [DecidableEq ε] [DecidableEq α] : DecidableEq (Except ε α) := fun a b =>
  match a, b with
  | .error x, .error y =>
    if h : x = y then isTrue (by rw [h])
    else isFalse (fun hc => h (Except.error.inj hc))
  | .ok x, .ok y =>
    if h : x = y then isTrue (by rw [h])
    else isFalse (fun hc => h (Except.ok.inj hc))
  | .error _, .ok _ => isFalse (fun hc => Except.noConfusion hc)
  | .ok _, .error _ => isFalse (fun hc => Except.noConfusion hc)

/-- A constant sub-application for witnesses. -/
def devSubApp : UpstreamRequest Unit → UpstreamResponse Unit :=
  fun _ => ⟨200, [], ()⟩

theorem splitWsAux_append_nonws (w : PyStr) (hw : ∀ c ∈ w, pyIsWs c = false) :
    ∀ (s acc : PyStr), splitWsAux (w ++ s) acc = splitWsAux s (w.reverse ++ acc) := by
  induction w with
  | nil => intro s acc; simp
  | cons c cs ih =>
    intro s acc
    have hc : pyIsWs c = false := hw c (by simp)
    have hcs : ∀ x ∈ cs, pyIsWs x = false := fun x hx => hw x (by simp [hx])
    simp only [List.cons_append, splitWsAux, hc, Bool.false_eq_true, if_false]
    exact (ih hcs s (c :: acc)).trans (by simp)

theorem pySplitWs_single (w : PyStr) (hne : w ≠ [])
    (hw : ∀ c ∈ w, pyIsWs c = false) : pySplitWs w = [w] := by
  have h := splitWsAux_append_nonws w hw [] []
  simp only [List.append_nil] at h
  unfold pySplitWs
  rw [h]
  have hrev : w.reverse ≠ [] := fun hr => hne (by simpa using hr)
  simp [splitWsAux, hrev]

theorem splitWsAux_space_cons (rest acc : PyStr) (hacc : acc ≠ []) :
    splitWsAux (' ' :: rest) acc = acc.reverse :: splitWsAux rest [] := by
  simp [splitWsAux, pyIsWs, hacc]

/-- Joining non-empty whitespace-free words with single spaces and re-splitting
on whitespace recovers the word list. -/
theorem pySplitWs_pyJoin (l : List PyStr)
    (h : ∀ w ∈ l, w ≠ [] ∧ ∀ c ∈ w, pyIsWs c = false) :
    pySplitWs (pyJoin [' '] l) = l := by
  induction l with
  | nil => rfl
  | cons w ws ih =>
    have hw := h w (by simp)
    have hws : ∀ x ∈ ws, x ≠ [] ∧ ∀ c ∈ x, pyIsWs c = false :=
      fun x hx => h x (by simp [hx])
    cases ws with
    | nil => simpa [pyJoin] using pySplitWs_single w hw.1 hw.2
    | cons w2 ws2 =>
      have hjoin : pyJoin [' '] (w :: w2 :: ws2)
          = w ++ (' ' :: pyJoin [' '] (w2 :: ws2)) := by
        simp [pyJoin]
      unfold pySplitWs
      rw [hjoin, splitWsAux_append_nonws w hw.2 _ [], List.append_nil]
      have hrev : w.reverse ≠ [] := fun hr => hw.1 (by simpa using hr)
      rw [splitWsAux_space_cons _ _ hrev, List.reverse_reverse]
      exact congrArg (w :: ·) (ih hws)

theorem dropWhile_eq_self_of_none (p : Char → Bool) (l : PyStr)
    (h : ∀ c ∈ l, p c = false) : l.dropWhile p = l := by
  cases l with
  | nil => rfl
  | cons c cs => simp [List.dropWhile, h c (by simp)]

theorem pyStrip_nonws (t : PyStr) (h : ∀ c ∈ t, pyIsWs c = false) :
    pyStrip t = t := by
  unfold pyStrip
  rw [dropWhile_eq_self_of_none _ _ h,
    dropWhile_eq_self_of_none _ _ (fun c hc => h c (List.mem_reverse.mp hc)),
    List.reverse_reverse]

theorem status_eq_of_error_eq {α : Type} (x e : HTTPError) (n : Nat)
    (hs : x.status = n) (h : (Except.error x : Except HTTPError α) = .error e) :
    e.status = n := by
  injection h with h2
  exact h2 ▸ hs

theorem extract_error_status (a : Option PyStr) (e : HTTPError)
    (h : extract_bearer_token a = .error e) : e.status = 401 := by
  unfold extract_bearer_token at h
  split at h
  · exact status_eq_of_error_eq _ e 401 rfl h
  · split at h
    · exact status_eq_of_error_eq _ e 401 rfl h
    · split at h
      · split at h
        · simp at h
        · exact status_eq_of_error_eq _ e 401 rfl h
      · exact status_eq_of_error_eq _ e 401 rfl h

theorem verifyJwtCore_error_status (tok : Token) (st : Settings) (now : Int)
    (e : HTTPError) (h : verifyJwtCore tok st now = .error e) : e.status = 401 := by
  unfold verifyJwtCore at h
  split at h
  · simp at h
  · exact status_eq_of_error_eq _ e 401 rfl h
  · exact status_eq_of_error_eq _ e 401 rfl h

theorem verify_error_status (parseTok : PyStr → Option Token)
    (a : Option PyStr) (st : Settings) (now : Int) (e : HTTPError)
    (h : verify_jwt_from_header parseTok a st now = .error e) : e.status = 401 := by
  unfold verify_jwt_from_header at h
  split at h
  · rename_i x heq
    injection h with h2
    exact h2 ▸ extract_error_status a x heq
  · split at h
    · exact status_eq_of_error_eq _ e 401 rfl h
    · exact verifyJwtCore_error_status _ st now e h

theorem missing_toFinset (required ts : List PyStr) :
    (required.filter (fun r => decide (r ∉ ts))).toFinset
      = required.toFinset \ ts.toFinset := by
  ext x
  simp [List.mem_filter]

theorem require_scopes_ok_iff (claims : Payload) (st : Settings) :
    require_scopes claims st = .ok () ↔
      st.mcp_required_scopes.toFinset ⊆ (token_scopes claims).toFinset := by
  unfold require_scopes
  by_cases hreq : st.mcp_required_scopes.toFinset = ∅
  · rw [if_pos hreq]
    exact iff_of_true rfl (by rw [hreq]; exact Finset.empty_subset _)
  · rw [if_neg hreq]
    by_cases h2 : (st.mcp_required_scopes.filter
        (fun r => decide (r ∉ token_scopes claims))).toFinset = ∅
    · rw [if_pos h2]
      rw [missing_toFinset] at h2
      exact iff_of_true rfl (Finset.sdiff_eq_empty_iff_subset.mp h2)
    · rw [if_neg h2]
      have h3 : ¬ st.mcp_required_scopes.toFinset ⊆ (token_scopes claims).toFinset := by
        rw [missing_toFinset] at h2
        exact fun hsub => h2 (Finset.sdiff_eq_empty_iff_subset.mpr hsub)
      exact iff_of_false (by simp) h3

theorem require_scopes_error_shape (claims : Payload) (st : Settings)
    (e : HTTPError) (h : require_scopes claims st = .error e) :
    e.status = 403 ∧
    ∃ l : List PyStr,
      l.toFinset = st.mcp_required_scopes.toFinset \ (token_scopes claims).toFinset ∧
      l.Sorted (· ≤ ·) ∧ l.Nodup ∧
      e.detail = "Missing scopes: ".toList ++ pyJoin (", ".toList) l := by
  unfold require_scopes at h
  split at h
  · simp at h
  · split at h
    · simp at h
    · rename_i hreq hmiss
      have he : e = ⟨403, missingMsg (st.mcp_required_scopes.filter
          (fun r => decide (r ∉ token_scopes claims)))⟩ := by
        injection h with h2
        exact h2.symm
      subst he
      refine ⟨rfl, List.insertionSort (· ≤ ·) (st.mcp_required_scopes.filter
          (fun r => decide (r ∉ token_scopes claims))).dedup, ?_, ?_, ?_, rfl⟩
      · rw [List.toFinset_eq_of_perm _ _ (List.perm_insertionSort _ _)]
        rw [← missing_toFinset]
        exact List.toFinset.ext fun x => by simp
      · exact List.sorted_insertionSort _ _
      · exact ((List.perm_insertionSort _ _).symm).nodup (List.nodup_dedup _)

theorem gateDecision_disabled (parseTok : PyStr → Option Token) (st : Settings)
    (now : Int) (sc : AsgiScope) (hoff : st.mcp_enable_auth = false) :
    gateDecision parseTok st now sc = .ok () := by
  unfold gateDecision
  rw [hoff]
  simp

theorem gateDecision_error_cases (parseTok : PyStr → Option Token)
    (st : Settings) (now : Int) (sc : AsgiScope) (e : HTTPError)
    (h : gateDecision parseTok st now sc = .error e) :
    (e.status = 401 ∧ verify_jwt_from_header parseTok
        (some (dictGetLast sc.headers ("authorization".toList) [])) st now = .error e)
    ∨ (e.status = 403 ∧ ∃ claims, verify_jwt_from_header parseTok
        (some (dictGetLast sc.headers ("authorization".toList) [])) st now = .ok claims
        ∧ require_scopes claims st = .error e) := by
  unfold gateDecision at h
  split at h
  · split at h
    · rename_i x heq
      injection h with h2
      subst h2
      exact Or.inl ⟨verify_error_status _ _ _ _ _ heq, heq⟩
    · rename_i claims heq
      exact Or.inr ⟨(require_scopes_error_shape claims st e h).1, claims, heq, h⟩
  · simp at h

theorem gateCall_raise_inv {ρ σ : Type} (parseTok : PyStr → Option Token)
    (st : Settings) (now : Int) (sc : AsgiScope) (r : ρ) (sd : σ) (e : HTTPError)
    (h : mcpAuthGateCall parseTok st now sc r sd = .raiseHTTP e) :
    sc.type = "http".toList ∧ gateDecision parseTok st now sc = .error e := by
  unfold mcpAuthGateCall at h
  split at h
  · simp at h
  · rename_i htype
    refine ⟨not_not.mp htype, ?_⟩
    split at h
    · rename_i x heq
      injection h with h2
      exact h2 ▸ heq
    · simp at h

theorem gateCall_of_decision_error {ρ σ : Type} (parseTok : PyStr → Option Token)
    (st : Settings) (now : Int) (sc : AsgiScope) (r : ρ) (sd : σ) (e : HTTPError)
    (htype : sc.type = "http".toList)
    (h : gateDecision parseTok st now sc = .error e) :
    mcpAuthGateCall parseTok st now sc r sd = .raiseHTTP e := by
  unfold mcpAuthGateCall
  rw [if_neg (by simp [htype]), h]

theorem gateCall_of_decision_ok {ρ σ : Type} (parseTok : PyStr → Option Token)
    (st : Settings) (now : Int) (sc : AsgiScope) (r : ρ) (sd : σ)
    (h : gateDecision parseTok st now sc = .ok ()) :
    mcpAuthGateCall parseTok st now sc r sd = .forward sc r sd := by
  unfold mcpAuthGateCall
  by_cases htype : sc.type ≠ "http".toList
  · rw [if_pos htype]
  · rw [if_neg htype, h]

theorem alias_raise_inv {β γ : Type} (parseTok : PyStr → Option Token)
    (st : Settings) (now : Int) (req : AliasRequest β)
    (subApp : UpstreamRequest β → UpstreamResponse γ) (e : HTTPError)
    (h : mcp_messages_alias parseTok st now req subApp = .raiseHTTP e) :
    st.mcp_enable_auth = true ∧
    ((e.status = 401 ∧ verify_jwt_from_header parseTok
        (some (headersGetFirst req.headers ("authorization".toList) [])) st now = .error e)
     ∨ (e.status = 403 ∧ ∃ claims, verify_jwt_from_header parseTok
        (some (headersGetFirst req.headers ("authorization".toList) [])) st now = .ok claims
        ∧ require_scopes claims st = .error e)) := by
  unfold mcp_messages_alias at h
  split at h
  · rename_i hon
    refine ⟨hon, ?_⟩
    split at h
    · rename_i x heq
      injection h with h2
      subst h2
      exact Or.inl ⟨verify_error_status _ _ _ _ _ heq, heq⟩
    · rename_i claims heq
      split at h
      · rename_i x h2eq
        injection h with h2
        subst h2
        exact Or.inr ⟨(require_scopes_error_shape claims st x h2eq).1, claims, heq, h2eq⟩
      · simp [aliasForward] at h
  · simp [aliasForward] at h

theorem alias_raise_all_bodies {β β2 γ γ2 : Type} (parseTok : PyStr → Option Token)
    (st : Settings) (now : Int) (req : AliasRequest β)
    (subApp : UpstreamRequest β → UpstreamResponse γ) (e : HTTPError)
    (h : mcp_messages_alias parseTok st now req subApp = .raiseHTTP e)
    (body2 : β2) (subApp2 : UpstreamRequest β2 → UpstreamResponse γ2) :
    mcp_messages_alias parseTok st now ⟨req.headers, req.path, req.query, body2⟩
      subApp2 = .raiseHTTP e := by
  unfold mcp_messages_alias at h ⊢
  dsimp only
  split at h
  · rename_i hon
    rw [if_pos hon]
    split at h
    · injection h with h2
      rw [h2]
    · split at h
      · injection h with h2
        rw [h2]
      · simp [aliasForward] at h
  · simp [aliasForward] at h

/-- C1: On a protected path, every rejection the Auth Gate or the Forwarding
Alias produces carries status 401 exactly when bearer-token verification
failed (for any reason) and 403 exactly when verification succeeded and only
the scope check failed; no other status code arises, and the outcome is a
value of the total decision function — no verification failure escapes as an
unhandled fault that would yield a generic 500. -/
theorem gate_and_alias_auth_failure_statuses {ρ σ β γ : Type}
    (parseTok : PyStr → Option Token) (st : Settings) (now : Int)
    (sc : AsgiScope) (r : ρ) (sd : σ) (req : AliasRequest β)
    (subApp : UpstreamRequest β → UpstreamResponse γ) :
    (∀ e, mcpAuthGateCall parseTok st now sc r sd = .raiseHTTP e →
      (e.status = 401 ∧ verify_jwt_from_header parseTok
          (some (dictGetLast sc.headers ("authorization".toList) [])) st now = .error e)
      ∨ (e.status = 403 ∧ ∃ claims, verify_jwt_from_header parseTok
          (some (dictGetLast sc.headers ("authorization".toList) [])) st now = .ok claims
          ∧ require_scopes claims st = .error e))
    ∧ (∀ e, mcp_messages_alias parseTok st now req subApp = .raiseHTTP e →
      (e.status = 401 ∧ verify_jwt_from_header parseTok
          (some (headersGetFirst req.headers ("authorization".toList) [])) st now = .error e)
      ∨ (e.status = 403 ∧ ∃ claims, verify_jwt_from_header parseTok
          (some (headersGetFirst req.headers ("authorization".toList) [])) st now = .ok claims
          ∧ require_scopes claims st = .error e)) := by
  constructor
  · intro e h
    exact gateDecision_error_cases parseTok st now sc e
      (gateCall_raise_inv parseTok st now sc r sd e h).2
  · intro e h
    exact (alias_raise_inv parseTok st now req subApp e h).2

/-- Witness for C1: a concrete tokenless request under the mount is rejected,
and the theorem classifies its status as the verification-failure 401. -/
theorem gate_and_alias_auth_failure_statuses_witness :
    mcpAuthGateCall devParse devSettings 0 ⟨"http".toList, "/mcp/sse".toList, []⟩ () ()
      = .raiseHTTP ⟨401, "Missing Authorization header".toList⟩ ∧
    (⟨401, "Missing Authorization header".toList⟩ : HTTPError).status = 401 := by
  refine ⟨by decide, ?_⟩
  have h := (gate_and_alias_auth_failure_statuses devParse devSettings 0
      ⟨"http".toList, "/mcp/sse".toList, []⟩ () ()
      (⟨[], "/messages".toList, [], ()⟩ : AliasRequest Unit) devSubApp).1
      ⟨401, "Missing Authorization header".toList⟩ (by decide)
  rcases h with ⟨h1, _⟩ | ⟨h1, _⟩
  · exact h1
  · exact absurd h1 (by decide)

/-- C4: When the auth check rejects a protected-mount or alias request, the
result is that 401/403 rejection and the mounted sub-application is never
invoked: the gate's outcome is unchanged for arbitrary receive/send channels,
and the alias's outcome is unchanged for an arbitrary body and an arbitrary
sub-application — no part of forwarding happens before the check passes. -/
theorem reject_means_no_forwarding {ρ σ β γ : Type}
    (parseTok : PyStr → Option Token) (st : Settings) (now : Int)
    (sc : AsgiScope) (r : ρ) (sd : σ) (req : AliasRequest β)
    (subApp : UpstreamRequest β → UpstreamResponse γ) (e : HTTPError) :
    (mcpAuthGateCall parseTok st now sc r sd = .raiseHTTP e →
      (e.status = 401 ∨ e.status = 403) ∧
      ∀ (ρ2 σ2 : Type) (r2 : ρ2) (sd2 : σ2),
        mcpAuthGateCall parseTok st now sc r2 sd2 = .raiseHTTP e)
    ∧ (mcp_messages_alias parseTok st now req subApp = .raiseHTTP e →
      (e.status = 401 ∨ e.status = 403) ∧
      ∀ (β2 γ2 : Type) (body2 : β2)
        (subApp2 : UpstreamRequest β2 → UpstreamResponse γ2),
        mcp_messages_alias parseTok st now ⟨req.headers, req.path, req.query, body2⟩
          subApp2 = .raiseHTTP e) := by
  constructor
  · intro h
    obtain ⟨htype, hdec⟩ := gateCall_raise_inv parseTok st now sc r sd e h
    refine ⟨?_, fun ρ2 σ2 r2 sd2 =>
      gateCall_of_decision_error parseTok st now sc r2 sd2 e htype hdec⟩
    rcases gateDecision_error_cases parseTok st now sc e hdec with ⟨h1, _⟩ | ⟨h1, _⟩
    · exact Or.inl h1
    · exact Or.inr h1
  · intro h
    refine ⟨?_, fun β2 γ2 body2 subApp2 =>
      alias_raise_all_bodies parseTok st now req subApp e h body2 subApp2⟩
    rcases (alias_raise_inv parseTok st now req subApp e h).2 with ⟨h1, _⟩ | ⟨h1, _⟩
    · exact Or.inl h1
    · exact Or.inr h1

/-- Witness for C4: the rejection of a concrete tokenless request is
reproduced with different receive/send channel values. -/
theorem reject_means_no_forwarding_witness :
    mcpAuthGateCall devParse devSettings 0 ⟨"http".toList, "/mcp/x".toList, []⟩
      (0 : Nat) true = .raiseHTTP ⟨401, "Missing Authorization header".toList⟩ :=
  ((reject_means_no_forwarding devParse devSettings 0
      ⟨"http".toList, "/mcp/x".toList, []⟩ () ()
      (⟨[], "/messages".toList, [], ()⟩ : AliasRequest Unit) devSubApp
      ⟨401, "Missing Authorization header".toList⟩).1 (by decide)).2 Nat Bool 0 true

/-- C5: The Auth Gate decides from the ASGI scope (event type, path, headers)
alone — the request body, which only arrives through the opaque `receive`
channel, is never read: with auth disabled every request is forwarded
unconditionally, a passing check forwards the original scope and the untouched
receive/send streams (the body bytes stream through unbuffered), and whether a
scope is rejected, and with which error, is independent of the streams. -/
theorem gate_headers_only_pass_through {ρ σ : Type}
    (parseTok : PyStr → Option Token) (st : Settings) (now : Int)
    (sc : AsgiScope) (r : ρ) (sd : σ) :
    (st.mcp_enable_auth = false →
      mcpAuthGateCall parseTok st now sc r sd = .forward sc r sd)
    ∧ (gateDecision parseTok st now sc = .ok () →
      mcpAuthGateCall parseTok st now sc r sd = .forward sc r sd)
    ∧ (∀ (ρ2 σ2 : Type) (r2 : ρ2) (sd2 : σ2) (e : HTTPError),
        mcpAuthGateCall parseTok st now sc r2 sd2 = .raiseHTTP e ↔
        mcpAuthGateCall parseTok st now sc r sd = .raiseHTTP e) := by
  refine ⟨fun hoff => gateCall_of_decision_ok _ _ _ _ _ _
      (gateDecision_disabled _ _ _ _ hoff),
    fun hok => gateCall_of_decision_ok _ _ _ _ _ _ hok, ?_⟩
  intro ρ2 σ2 r2 sd2 e
  constructor
  · intro h
    obtain ⟨htype, hdec⟩ := gateCall_raise_inv _ _ _ _ _ _ _ h
    exact gateCall_of_decision_error _ _ _ _ r sd _ htype hdec
  · intro h
    obtain ⟨htype, hdec⟩ := gateCall_raise_inv _ _ _ _ _ _ _ h
    exact gateCall_of_decision_error _ _ _ _ r2 sd2 _ htype hdec

/-- Witness for C5: with auth disabled a concrete request is forwarded with
its original scope and stream values. -/
theorem gate_headers_only_pass_through_witness :
    mcpAuthGateCall devParse
      ⟨false, "/mcp".toList, "dev-secret".toList, "iss".toList, "aud".toList,
       "HS256".toList, 3600, []⟩ 0 ⟨"http".toList, "/mcp/sse".toList, []⟩ (5 : Nat) "s"
      = .forward ⟨"http".toList, "/mcp/sse".toList, []⟩ 5 "s" :=
  (gate_headers_only_pass_through devParse
    ⟨false, "/mcp".toList, "dev-secret".toList, "iss".toList, "aud".toList,
     "HS256".toList, 3600, []⟩ 0 ⟨"http".toList, "/mcp/sse".toList, []⟩ 5 "s").1 rfl

/-- C10: The gate authenticates only ASGI events whose scope type is `"http"`;
every other event (websocket, lifespan, ...) is forwarded to the inner
application with no check at all, even when auth is enabled and the path lies
under the protected mount. -/
theorem non_http_events_bypass_auth {ρ σ : Type}
    (parseTok : PyStr → Option Token) (st : Settings) (now : Int)
    (sc : AsgiScope) (r : ρ) (sd : σ) (h : sc.type ≠ "http".toList) :
    mcpAuthGateCall parseTok st now sc r sd = .forward sc r sd := by
  unfold mcpAuthGateCall
  rw [if_pos h]

/-- Witness for C10: a websocket event under `/mcp` with auth enabled is
forwarded unchecked. -/
theorem non_http_events_bypass_auth_witness :
    mcpAuthGateCall devParse devSettings 0 ⟨"websocket".toList, "/mcp/ws".toList, []⟩ () ()
      = .forward ⟨"websocket".toList, "/mcp/ws".toList, []⟩ () () ∧
    devSettings.mcp_enable_auth = true :=
  ⟨non_http_events_bypass_auth devParse devSettings 0 _ () () (by decide), by decide⟩

theorem pySplitWs_two_words (scheme t : PyStr) (hs1 : scheme ≠ [])
    (hs2 : ∀ c ∈ scheme, pyIsWs c = false) (ht1 : t ≠ [])
    (ht2 : ∀ c ∈ t, pyIsWs c = false) :
    pySplitWs (scheme ++ (' ' :: t)) = [scheme, t] := by
  have h := pySplitWs_pyJoin [scheme, t] (by
    intro w hw
    simp only [List.mem_cons, List.not_mem_nil, or_false] at hw
    rcases hw with rfl | rfl
    · exact ⟨hs1, hs2⟩
    · exact ⟨ht1, ht2⟩)
  have hjoin : pyJoin [' '] [scheme, t] = scheme ++ (' ' :: t) := by
    simp [pyJoin]
  rw [hjoin] at h
  exact h

theorem extract_scheme_token (scheme t : PyStr) (hs1 : scheme ≠ [])
    (hs2 : ∀ c ∈ scheme, pyIsWs c = false) (ht1 : t ≠ [])
    (ht2 : ∀ c ∈ t, pyIsWs c = false) :
    extract_bearer_token (some (scheme ++ (' ' :: t)))
      = if pyLower scheme = "bearer".toList then .ok t
        else .error ⟨401, "Invalid Authorization header".toList⟩ := by
  unfold extract_bearer_token
  dsimp only
  rw [if_neg (show ¬(scheme ++ (' ' :: t)) = [] from by simp),
    pySplitWs_two_words scheme t hs1 hs2 ht1 ht2]
  dsimp only
  by_cases hlow : pyLower scheme = "bearer".toList
  · rw [if_pos hlow, if_pos hlow, pyStrip_nonws t ht2]
  · rw [if_neg hlow, if_neg hlow]

/-- C8: an absent or empty Authorization header fails with the missing-auth
401 ("Missing Authorization header"); a present header that does not split
into exactly two whitespace-separated parts, or whose first part does not
lowercase to "bearer", fails with the malformed 401 ("Invalid Authorization
header"); in particular lowercase `bearer <tok>` is accepted and
`Token <tok>` is rejected. -/
theorem authorization_header_shapes :
    (extract_bearer_token none
      = .error ⟨401, "Missing Authorization header".toList⟩)
    ∧ (extract_bearer_token (some [])
      = .error ⟨401, "Missing Authorization header".toList⟩)
    ∧ (∀ s : PyStr, s ≠ [] → (pySplitWs s).length ≠ 2 →
        extract_bearer_token (some s)
          = .error ⟨401, "Invalid Authorization header".toList⟩)
    ∧ (∀ s scheme tok : PyStr, s ≠ [] → pySplitWs s = [scheme, tok] →
        pyLower scheme ≠ "bearer".toList →
        extract_bearer_token (some s)
          = .error ⟨401, "Invalid Authorization header".toList⟩)
    ∧ (∀ t : PyStr, t ≠ [] → (∀ c ∈ t, pyIsWs c = false) →
        extract_bearer_token (some ("bearer ".toList ++ t)) = .ok t)
    ∧ (∀ t : PyStr, t ≠ [] → (∀ c ∈ t, pyIsWs c = false) →
        extract_bearer_token (some ("Token ".toList ++ t))
          = .error ⟨401, "Invalid Authorization header".toList⟩) := by
  refine ⟨rfl, rfl, ?_, ?_, ?_, ?_⟩
  · intro s hne hlen
    unfold extract_bearer_token
    dsimp only
    rw [if_neg hne]
    rcases hsp : pySplitWs s with _ | ⟨a, _ | ⟨b, _ | ⟨c, rest⟩⟩⟩
    · rfl
    · rfl
    · rw [hsp] at hlen
      simp at hlen
    · rfl
  · intro s scheme tok hne hsp hlow
    unfold extract_bearer_token
    dsimp only
    rw [if_neg hne, hsp]
    dsimp only
    rw [if_neg hlow]
  · intro t ht1 ht2
    have h := extract_scheme_token ("bearer".toList) t (by decide) (by decide) ht1 ht2
    rw [if_pos (by decide)] at h
    exact h
  · intro t ht1 ht2
    have h := extract_scheme_token ("Token".toList) t (by decide) (by decide) ht1 ht2
    rw [if_neg (by decide)] at h
    exact h

/-- Witness for C8 at concrete header values. -/
theorem authorization_header_shapes_witness :
    extract_bearer_token (some ("bearer ".toList ++ "tok123".toList))
      = .ok ("tok123".toList) ∧
    extract_bearer_token (some ("Token ".toList ++ "tok123".toList))
      = .error ⟨401, "Invalid Authorization header".toList⟩ :=
  ⟨(authorization_header_shapes).2.2.2.2.1 ("tok123".toList) (by decide) (by decide),
   (authorization_header_shapes).2.2.2.2.2 ("tok123".toList) (by decide) (by decide)⟩

/-- C2: with R the configured required-scope set and S the token scope set
derived from the claims, the scope check allows exactly when R ⊆ S (so always
when R is empty), and on denial it returns status 403 whose message names
exactly the missing scopes R \ S, sorted and without repetition. -/
theorem scope_check_iff_subset (st : Settings) (claims : Payload) :
    (require_scopes claims st = .ok () ↔
      st.mcp_required_scopes.toFinset ⊆ (token_scopes claims).toFinset)
    ∧ (st.mcp_required_scopes = [] → require_scopes claims st = .ok ())
    ∧ (∀ e, require_scopes claims st = .error e →
      e.status = 403 ∧ ∃ l : List PyStr,
        l.toFinset = st.mcp_required_scopes.toFinset \ (token_scopes claims).toFinset ∧
        l.Sorted (· ≤ ·) ∧ l.Nodup ∧
        e.detail = "Missing scopes: ".toList ++ pyJoin (", ".toList) l) := by
  refine ⟨require_scopes_ok_iff claims st, ?_,
    fun e h => require_scopes_error_shape claims st e h⟩
  intro hnil
  rw [require_scopes_ok_iff claims st, hnil]
  simp

/-- Witness for C2: one required scope, a token with no scopes: denial with
status 403 naming the missing scope. -/
theorem scope_check_iff_subset_witness :
    require_scopes ⟨none, none, none, none, none, some (.vstr []), none⟩
      devSettingsScoped = .error ⟨403, "Missing scopes: mcp".toList⟩ ∧
    (⟨403, "Missing scopes: mcp".toList⟩ : HTTPError).status = 403 := by
  refine ⟨by decide, ?_⟩
  exact ((scope_check_iff_subset devSettingsScoped
    ⟨none, none, none, none, none, some (.vstr []), none⟩).2.2 _ (by decide)).1

theorem pyOr_vstr_pyStr (s0 : PyStr) :
    (pyOrJ (JVal.vstr s0) (.vstr [])).pyStr = s0 := by
  unfold pyOrJ
  by_cases h : (JVal.vstr s0).truthy
  · rw [if_pos h]
    rfl
  · rw [if_neg h]
    unfold JVal.truthy at h
    simp at h
    rw [h]
    rfl

theorem decode_issued (st : Settings) (s : PyStr) (S : List PyStr)
    (issueAt verifyAt : Int) (hexp : verifyAt < issueAt + st.mcp_jwt_ttl_seconds) :
    decodeJwt (issue_jwt s S st issueAt) st.mcp_jwt_secret st.mcp_jwt_algorithm
      st.mcp_jwt_audience st.mcp_jwt_issuer reqAll verifyAt
      = .ok (issue_jwt s S st issueAt).payload := by
  unfold issue_jwt decodeJwt requiredClaimErr checkIssAud reqAll
  simp [not_le.mpr hexp]

/-- C3 counterexample: issuing for subject `alice` with scope set `{"a b"}`
(one scope containing a space) verifies, but the resulting scope set is
`{"a", "b"}`, not `{"a b"}` — the round-trip claim fails for scope strings
containing whitespace, because `issue_jwt` joins scopes with spaces and
verification re-splits on whitespace. -/
theorem issue_verify_round_trip_counterexample :
    verifyJwtCore (issue_jwt ("alice".toList) ["a b".toList] devSettings 0)
      devSettings 1
      = .ok (issue_jwt ("alice".toList) ["a b".toList] devSettings 0).payload ∧
    (token_scopes (issue_jwt ("alice".toList) ["a b".toList] devSettings 0).payload).toFinset
      = ({"a".toList, "b".toList} : Finset PyStr) ∧
    ({"a".toList, "b".toList} : Finset PyStr) ≠ {"a b".toList} := by
  refine ⟨by decide, by decide, by decide⟩

/-- C3 (amended): for every non-empty subject `s` and every scope list `S`
whose elements are non-empty and whitespace-free, verifying the freshly issued
token under the same configuration before expiry succeeds and yields claims
with subject `s` and exactly the scope set `S`. -/
theorem issue_verify_round_trip (st : Settings) (s : PyStr) (S : List PyStr)
    (issueAt verifyAt : Int) (hs : s ≠ [])
    (hS : ∀ w ∈ S, w ≠ [] ∧ ∀ c ∈ w, pyIsWs c = false)
    (hexp : verifyAt < issueAt + st.mcp_jwt_ttl_seconds) :
    verifyJwtCore (issue_jwt s S st issueAt) st verifyAt
      = .ok (issue_jwt s S st issueAt).payload
    ∧ (issue_jwt s S st issueAt).payload.sub = some s
    ∧ token_scopes (issue_jwt s S st issueAt).payload = S
    ∧ (token_scopes (issue_jwt s S st issueAt).payload).toFinset = S.toFinset := by
  have hts : token_scopes (issue_jwt s S st issueAt).payload = S := by
    show token_scopes ⟨some s, some st.mcp_jwt_issuer, some st.mcp_jwt_audience,
      some issueAt, some (issueAt + st.mcp_jwt_ttl_seconds),
      some (.vstr (pyJoin [' '] S)), none⟩ = S
    unfold token_scopes jget
    dsimp only [Option.getD]
    rw [pyOr_vstr_pyStr, pySplitWs_pyJoin S hS]
    exact List.filter_eq_self.mpr (fun a ha => by simp [(hS a ha).1])
  refine ⟨?_, rfl, hts, by rw [hts]⟩
  unfold verifyJwtCore
  rw [decode_issued st s S issueAt verifyAt hexp]

/-- Witness for the amended C3 at a concrete subject and scope list. -/
theorem issue_verify_round_trip_witness :
    verifyJwtCore (issue_jwt ("alice".toList) ["read".toList, "write".toList]
        devSettings 0) devSettings 10
      = .ok (issue_jwt ("alice".toList) ["read".toList, "write".toList]
        devSettings 0).payload
    ∧ (issue_jwt ("alice".toList) ["read".toList, "write".toList]
        devSettings 0).payload.sub = some ("alice".toList)
    ∧ token_scopes (issue_jwt ("alice".toList) ["read".toList, "write".toList]
        devSettings 0).payload = ["read".toList, "write".toList] :=
  have h := issue_verify_round_trip devSettings ("alice".toList)
    ["read".toList, "write".toList] 0 10 (by decide) (by decide) (by decide)
  ⟨h.1, h.2.1, h.2.2.1⟩

theorem checkIssAud_ok (p : Payload) (aud iss : PyStr) (q : Payload)
    (h : checkIssAud p aud iss = .ok q) : q = p := by
  unfold checkIssAud at h
  split at h
  · simp at h
  · split at h
    · simp at h
    · split at h
      · simp at h
      · split at h
        · simp at h
        · exact (Except.ok.inj h).symm

theorem decodeJwt_ok_exp (tok : Token) (key alg aud iss : PyStr)
    (rq : ReqClaims) (now : Int) (p : Payload)
    (h : decodeJwt tok key alg aud iss rq now = .ok p) :
    p = tok.payload ∧ ∀ e, tok.payload.exp = some e → now < e := by
  unfold decodeJwt at h
  split at h
  · simp at h
  · split at h
    · simp at h
    · split at h
      · simp at h
      · split at h
        · rename_i e2 hexp2
          split at h
          · simp at h
          · rename_i hnotle
            refine ⟨checkIssAud_ok _ _ _ _ h, fun e3 he3 => ?_⟩
            rw [hexp2] at he3
            injection he3 with he4
            omega
        · rename_i hexpnone
          refine ⟨checkIssAud_ok _ _ _ _ h, fun e3 he3 => ?_⟩
          rw [hexpnone] at he3
          simp at he3

/-- C9 counterexample: an expired token whose signature does not match fails
with `InvalidSignature` — mapped to 401 "Invalid token" — and not with the
Expired kind (401 "Token expired"): signature checking precedes expiry
checking, so "for every token with exp ≤ now, verify fails with the Expired
error kind" is false as stated. -/
theorem expired_error_kind_counterexample :
    decodeJwt ⟨⟨some ("x".toList), some ("iss".toList), some ("aud".toList),
        some 0, some 0, none, none⟩, "wrong".toList, "HS256".toList⟩
      ("dev-secret".toList) ("HS256".toList) ("aud".toList) ("iss".toList)
      reqAll 100 = .error .invalidSignature ∧
    (⟨⟨some ("x".toList), some ("iss".toList), some ("aud".toList),
        some 0, some 0, none, none⟩, "wrong".toList, "HS256".toList⟩
      : Token).payload.exp = some 0 ∧ ((0 : Int) ≤ 100) ∧
    verifyJwtCore ⟨⟨some ("x".toList), some ("iss".toList), some ("aud".toList),
        some 0, some 0, none, none⟩, "wrong".toList, "HS256".toList⟩
      devSettings 100 = .error ⟨401, "Invalid token".toList⟩ ∧
    (⟨401, "Invalid token".toList⟩ : HTTPError) ≠ ⟨401, "Token expired".toList⟩ := by
  refine ⟨by decide, by decide, by decide, by decide, by decide⟩

/-- C9 (amended): once a token's `exp` is ≤ some time `now`, verification at
`now2 ≥ now` never yields a principal, for both verifier variants, no matter
how often it is retried; and when the token's algorithm, signature, required
claims, issuer and audience are otherwise acceptable (hypotheses that make the
statement independent of the claim-validation order), the failure is exactly
the Expired kind, surfaced as 401 "Token expired". -/
theorem expired_tokens_never_verify (tok : Token) (st : Settings)
    (now now2 e : Int) (hexp : tok.payload.exp = some e) (hle : e ≤ now)
    (hlater : now ≤ now2) :
    (∀ p, verifyJwtCore tok st now2 ≠ .ok p)
    ∧ verify_token tok st now2 = none
    ∧ (tok.alg = st.mcp_jwt_algorithm → tok.key = st.mcp_jwt_secret →
       requiredClaimErr reqAll tok.payload = none →
       tok.payload.iss = some st.mcp_jwt_issuer →
       tok.payload.aud = some st.mcp_jwt_audience →
       verifyJwtCore tok st now2 = .error ⟨401, "Token expired".toList⟩) := by
  have hnever : ∀ rq p, decodeJwt tok st.mcp_jwt_secret st.mcp_jwt_algorithm
      st.mcp_jwt_audience st.mcp_jwt_issuer rq now2 ≠ .ok p := by
    intro rq p hok
    have h2 := (decodeJwt_ok_exp tok _ _ _ _ rq now2 p hok).2 e hexp
    omega
  refine ⟨?_, ?_, ?_⟩
  · intro p hok
    unfold verifyJwtCore at hok
    split at hok
    · rename_i heq
      exact hnever reqAll _ heq
    · simp at hok
    · simp at hok
  · unfold verify_token
    split
    · rfl
    · rename_i payload heq
      exact absurd heq (hnever reqBasic payload)
  · intro halg hkeyeq hreq hiss haud
    have hdec : decodeJwt tok st.mcp_jwt_secret st.mcp_jwt_algorithm
        st.mcp_jwt_audience st.mcp_jwt_issuer reqAll now2 = .error .expired := by
      unfold decodeJwt
      rw [if_neg (by simp [halg]), if_neg (by simp [hkeyeq]), hreq]
      dsimp only
      rw [hexp]
      dsimp only
      rw [if_pos (show e ≤ now2 by omega)]
    unfold verifyJwtCore
    rw [hdec]

/-- Witness for the amended C9: a token expired at 50, verified at 60, for
both verifier variants. -/
theorem expired_tokens_never_verify_witness :
    verify_token ⟨⟨some ("u".toList), some ("iss".toList), some ("aud".toList),
        some 0, some 50, none, none⟩, "dev-secret".toList, "HS256".toList⟩
      devSettings 60 = none ∧
    verifyJwtCore ⟨⟨some ("u".toList), some ("iss".toList), some ("aud".toList),
        some 0, some 50, none, none⟩, "dev-secret".toList, "HS256".toList⟩
      devSettings 60 = .error ⟨401, "Token expired".toList⟩ :=
  have h := expired_tokens_never_verify
    ⟨⟨some ("u".toList), some ("iss".toList), some ("aud".toList),
      some 0, some 50, none, none⟩, "dev-secret".toList, "HS256".toList⟩
    devSettings 50 60 50 rfl (by decide) (by decide)
  ⟨h.2.1, h.2.2 rfl rfl (by decide) rfl rfl⟩

theorem splitWsAux_ne_nil : ∀ (s acc : PyStr), ∀ w ∈ splitWsAux s acc, w ≠ [] := by
  intro s
  induction s with
  | nil =>
    intro acc w hw
    unfold splitWsAux at hw
    split at hw
    · simp at hw
    · rename_i hacc
      simp at hw
      subst hw
      simpa using hacc
  | cons c cs ih =>
    intro acc w hw
    unfold splitWsAux at hw
    split at hw
    · split at hw
      · exact ih [] w hw
      · rename_i hacc
        rcases List.mem_cons.mp hw with rfl | hw2
        · simpa using hacc
        · exact ih [] w hw2
    · exact ih (c :: acc) w hw

theorem parseScopeClaim_vstr (s : PyStr) :
    parseScopeClaim (some (.vstr s)) none = pySplitWs s := by
  by_cases hs : s = []
  · subst hs
    rfl
  · have ht : (JVal.vstr s).truthy = true := by
      unfold JVal.truthy
      simpa using hs
    unfold parseScopeClaim jget
    dsimp only [Option.getD]
    unfold pyOrJ
    rw [if_pos ht, if_pos ht]
    dsimp only
    exact List.filter_eq_self.mpr
      (fun a ha => by simp [splitWsAux_ne_nil s [] a ha])

theorem parse_list_map_astr : ∀ l : List PyStr,
    ((l.map JAtom.astr).filter JAtom.truthy).map JAtom.pyStr
      = l.filter (fun w => decide (w ≠ [])) := by
  intro l
  induction l with
  | nil => rfl
  | cons w ws ih =>
    by_cases hw : w = []
    · subst hw
      simpa [JAtom.truthy, JAtom.pyStr] using ih
    · have h1 : JAtom.truthy (.astr w) = true := by
        unfold JAtom.truthy
        simpa using hw
      have h2 : decide (w ≠ []) = true := by simpa using hw
      simp only [List.map_cons, List.filter_cons, h1, h2, if_true, ih]
      rfl
  
theorem parseScopeClaim_vlist_str (l : List PyStr) :
    parseScopeClaim (some (.vlist (l.map .astr))) none
      = l.filter (fun w => decide (w ≠ [])) := by
  by_cases hl : l = []
  · subst hl
    rfl
  · have ht : (JVal.vlist (l.map .astr)).truthy = true := by
      unfold JVal.truthy
      simp [hl]
    unfold parseScopeClaim jget
    dsimp only [Option.getD]
    unfold pyOrJ
    rw [if_pos ht, if_pos ht]
    dsimp only
    exact parse_list_map_astr l

theorem parseScopeClaim_other (v : JVal) (hstr : ∀ s, v ≠ .vstr s)
    (hlist : ∀ l, v ≠ .vlist l) : parseScopeClaim (some v) none = [] := by
  cases v with
  | vnull => rfl
  | vbool b =>
    cases b with
    | true => rfl
    | false => rfl
  | vint n =>
    by_cases hn : n = 0
    · subst hn
      rfl
    · have ht : (JVal.vint n).truthy = true := by
        unfold JVal.truthy
        simpa using hn
      unfold parseScopeClaim jget
      dsimp only [Option.getD]
      unfold pyOrJ
      rw [if_pos ht, if_pos ht]
  | vstr s => exact absurd rfl (hstr s)
  | vlist l => exact absurd rfl (hlist l)

theorem verify_token_scopes (tok : Token) (st : Settings) (now : Int)
    (p : JwtToken) (h : verify_token tok st now = some p) :
    p.scopes = parseScopeClaim tok.payload.scope tok.payload.scopes := by
  unfold verify_token at h
  split at h
  · simp at h
  · rename_i payload heq
    have hpl := (decodeJwt_ok_exp tok _ _ _ _ reqBasic now payload heq).1
    split at h
    · simp at h
    · split at h
      · simp at h
      · injection h with h2
        rw [← h2, hpl]

/-- C6 counterexample: a list-shaped scope claim whose element is the integer
1 — neither a string claim nor a list of strings — parses to the scope set
{"1"}, not to the empty set the claim requires for any other shape: list
elements are coerced with `str()` and are not required to be strings. -/
theorem scope_parsing_counterexample :
    parseScopeClaim (some (.vlist [.aint 1])) none = ["1".toList] ∧
    (["1".toList] : List PyStr) ≠ [] := by
  refine ⟨by decide, by decide⟩

/-- C6 (amended): for every token the MCP verifier accepts, the Principal's
scope list is the parse of the scope claim, where a string claim splits on
whitespace, a list claim keeps its truthy elements coerced to strings by
`str()` (so an already-split list of strings keeps exactly its non-empty
elements — duplicates collapsing and order irrelevant at set level), and a
claim that is neither a string nor a list yields the empty scope set rather
than an error. -/
theorem scope_claim_parsing :
    (∀ (tok : Token) (st : Settings) (now : Int) (p : JwtToken),
        verify_token tok st now = some p →
        p.scopes = parseScopeClaim tok.payload.scope tok.payload.scopes)
    ∧ (∀ s : PyStr, parseScopeClaim (some (.vstr s)) none = pySplitWs s)
    ∧ (∀ l : List PyStr, parseScopeClaim (some (.vlist (l.map .astr))) none
        = l.filter (fun w => decide (w ≠ [])))
    ∧ (∀ l : List PyStr,
        (parseScopeClaim (some (.vlist (l.map .astr))) none).toFinset
          = l.toFinset \ {([] : PyStr)})
    ∧ (∀ v : JVal, (∀ s, v ≠ .vstr s) → (∀ l, v ≠ .vlist l) →
        parseScopeClaim (some v) none = []) := by
  refine ⟨verify_token_scopes, parseScopeClaim_vstr, parseScopeClaim_vlist_str,
    ?_, parseScopeClaim_other⟩
  intro l
  rw [parseScopeClaim_vlist_str]
  ext x
  simp

/-- Witness for the amended C6: a concrete accepted token with a
space-delimited string scope claim. -/
theorem scope_claim_parsing_witness :
    (⟨"u".toList, ["read".toList], (100 : Int)⟩ : JwtToken).scopes
      = parseScopeClaim (some (.vstr ("read".toList))) none :=
  (scope_claim_parsing).1
    ⟨⟨some ("u".toList), some ("iss".toList), some ("aud".toList),
      some 0, some 100, some (.vstr ("read".toList)), none⟩,
     "dev-secret".toList, "HS256".toList⟩ devSettings 10
    ⟨"u".toList, ["read".toList], 100⟩ (by decide)

theorem dedupKeysFirst_sub : ∀ (l : List (PyStr × PyStr)) (q : PyStr × PyStr),
    q ∈ dedupKeysFirst l → q ∈ l := by
  intro l
  induction l with
  | nil =>
    intro q hq
    simp [dedupKeysFirst] at hq
  | cons p ps ih =>
    intro q hq
    unfold dedupKeysFirst at hq
    rcases List.mem_cons.mp hq with rfl | hq2
    · exact List.mem_cons_self _ _
    · exact List.mem_cons_of_mem _ (ih q (List.mem_of_mem_filter hq2))

theorem dedupKeysFirst_keys : ∀ (l : List (PyStr × PyStr)) (k v : PyStr),
    (k, v) ∈ l → ∃ v2, (k, v2) ∈ dedupKeysFirst l := by
  intro l
  induction l with
  | nil =>
    intro k v hv
    simp at hv
  | cons p ps ih =>
    intro k v hv
    unfold dedupKeysFirst
    by_cases hk : k = p.1
    · refine ⟨p.2, ?_⟩
      rw [hk]
      exact List.mem_cons_self _ _
    · rcases List.mem_cons.mp hv with heq | hv2
      · exact absurd (congrArg Prod.fst heq) hk
      · obtain ⟨v2, hv3⟩ := ih k v hv2
        exact ⟨v2, List.mem_cons_of_mem _
          (List.mem_filter.mpr ⟨hv3, by simp [hk]⟩)⟩

theorem pyDictOfPairs_key (l : List (PyStr × PyStr)) (k v : PyStr)
    (h : (k, v) ∈ pyDictOfPairs l) : ∃ v2, (k, v2) ∈ l := by
  unfold pyDictOfPairs at h
  obtain ⟨p, hp, heq⟩ := List.mem_map.mp h
  have hk : p.1 = k := congrArg Prod.fst heq
  refine ⟨p.2, ?_⟩
  rw [← hk]
  exact dedupKeysFirst_sub l p hp

/-- C7 counterexample: the hop-by-hop exclusion set is applied only to the
response headers; a `connection` header on the inbound request IS included in
the forwarded request's headers (only `host` is removed), so the claim that
the forwarded call "sends all inbound headers except the fixed hop-by-hop
exclusion set and the host header" is false as stated. -/
theorem alias_request_headers_counterexample :
    ("connection".toList, "keep-alive".toList) ∈
      (buildUpstreamRequest (⟨[("connection".toList, "keep-alive".toList),
        ("host".toList, "example".toList)], "/messages".toList, [], ()⟩
        : AliasRequest Unit)).headers ∧
    ("connection".toList : PyStr) ∈ hopByHop := by
  refine ⟨by decide, by decide⟩

/-- C7 (amended): the forwarded in-process call preserves the body
byte-for-byte and the query string, imposes no timeout, and sends all inbound
headers except the `host` header (collapsing a repeated name to its first
value) — the hop-by-hop exclusion set is applied only to the response, whose
status and content are returned unchanged and whose headers are filtered to
the non-hop-by-hop ones; the alias performs exactly this forward when auth is
disabled or when the auth check passes. -/
theorem alias_forwarding_frame {β γ : Type} (parseTok : PyStr → Option Token)
    (st : Settings) (now : Int) (req : AliasRequest β)
    (subApp : UpstreamRequest β → UpstreamResponse γ) :
    (buildUpstreamRequest req).content = req.body
    ∧ (buildUpstreamRequest req).timeout = none
    ∧ (req.query ≠ [] →
        (buildUpstreamRequest req).pathWithQuery = req.path ++ ('?' :: req.query))
    ∧ (req.query = [] → (buildUpstreamRequest req).pathWithQuery = req.path)
    ∧ (∀ k v, (k, v) ∈ (buildUpstreamRequest req).headers →
        k ≠ "host".toList ∧ (k, v) ∈ req.headers)
    ∧ (∀ k v, (k, v) ∈ req.headers → k ≠ "host".toList →
        ∃ v2, (k, v2) ∈ (buildUpstreamRequest req).headers)
    ∧ aliasForward req subApp
        = .response (subApp (buildUpstreamRequest req)).status
          (pyDictOfPairs ((subApp (buildUpstreamRequest req)).headers.filter
            (fun q => decide (pyLower q.1 ∉ hopByHop))))
          (subApp (buildUpstreamRequest req)).content
    ∧ (∀ k v, (k, v) ∈ pyDictOfPairs
          ((subApp (buildUpstreamRequest req)).headers.filter
            (fun q => decide (pyLower q.1 ∉ hopByHop))) → pyLower k ∉ hopByHop)
    ∧ (st.mcp_enable_auth = false →
        mcp_messages_alias parseTok st now req subApp = aliasForward req subApp)
    ∧ (∀ claims, verify_jwt_from_header parseTok
          (some (headersGetFirst req.headers ("authorization".toList) [])) st now
            = .ok claims →
        require_scopes claims st = .ok () →
        mcp_messages_alias parseTok st now req subApp = aliasForward req subApp) := by
  refine ⟨rfl, rfl, ?_, ?_, ?_, ?_, rfl, ?_, ?_, ?_⟩
  · intro h
    unfold buildUpstreamRequest
    dsimp only
    rw [if_pos h]
  · intro h
    unfold buildUpstreamRequest
    dsimp only
    rw [if_neg (by simp [h])]
  · intro k v hkv
    unfold buildUpstreamRequest at hkv
    dsimp only at hkv
    have h1 := List.mem_filter.mp hkv
    refine ⟨by simpa using h1.2, dedupKeysFirst_sub _ _ h1.1⟩
  · intro k v hkv hk
    obtain ⟨v2, hv2⟩ := dedupKeysFirst_keys req.headers k v hkv
    refine ⟨v2, ?_⟩
    unfold buildUpstreamRequest
    dsimp only
    exact List.mem_filter.mpr ⟨hv2, by simpa using hk⟩
  · intro k v hkv
    obtain ⟨v2, hv2⟩ := pyDictOfPairs_key _ k v hkv
    simpa using (List.mem_filter.mp hv2).2
  · intro hoff
    unfold mcp_messages_alias
    rw [if_neg (by simp [hoff])]
  · intro claims hv hr
    unfold mcp_messages_alias
    by_cases hon : st.mcp_enable_auth
    · rw [if_pos hon, hv]
      dsimp only
      rw [hr]
    · rw [if_neg hon]

/-- Witness for the amended C7: with auth disabled, a concrete forward keeps
the query string and reaches the sub-application. -/
theorem alias_forwarding_frame_witness :
    (buildUpstreamRequest (⟨[], "/messages".toList, "session_id=42".toList,
        (3 : Nat)⟩ : AliasRequest Nat)).pathWithQuery
      = "/messages".toList ++ ('?' :: "session_id=42".toList) ∧
    mcp_messages_alias devParse
      ⟨false, "/mcp".toList, "dev-secret".toList, "iss".toList, "aud".toList,
       "HS256".toList, 3600, []⟩ 0
      (⟨[], "/messages".toList, "session_id=42".toList, (3 : Nat)⟩ : AliasRequest Nat)
      (fun _ => ⟨200, [], (5 : Nat)⟩)
      = aliasForward
        (⟨[], "/messages".toList, "session_id=42".toList, (3 : Nat)⟩ : AliasRequest Nat)
        (fun _ => ⟨200, [], (5 : Nat)⟩) :=
  have h := alias_forwarding_frame devParse
    ⟨false, "/mcp".toList, "dev-secret".toList, "iss".toList, "aud".toList,
     "HS256".toList, 3600, []⟩ 0
    (⟨[], "/messages".toList, "session_id=42".toList, (3 : Nat)⟩ : AliasRequest Nat)
    (fun _ => ⟨200, [], (5 : Nat)⟩)
  ⟨h.2.2.1 (by decide), h.2.2.2.2.2.2.2.2.1 rfl⟩
